import Mathlib

/-!
Shallow embedding of the TradeView backtesting core: the strategy state
machine of src/strategies/base_strategy.py and the simulation loop and
metrics calculator of src/backtester/engine.py.  Python floats are
modelled as rationals; Python None is modelled with Option; a value
raised as an exception is modelled with Except.
-/

namespace TradeView

/-- One OHLCV observation handed to the loop (the bar dict built in
BacktestEngine.run, engine.py lines 70-77).  The timestamp is an
abstract natural number. -/
structure Bar where
  datetime : ℕ
  open_ : ℚ
  high : ℚ
  low : ℚ
  close : ℚ
  volume : ℚ
deriving DecidableEq, Repr

/-- The mutable trading state of BaseStrategy (base_strategy.py lines
25-28): position, cash and the optional entry price. -/
@[ext]
structure StrategyState where
  position : ℚ
  cash : ℚ
  entry_price : Option ℚ
deriving DecidableEq, Repr

namespace BaseStrategy

/-- BaseStrategy.get_position_size (base_strategy.py line 70).  The
Python expression is `(cash * 0.95) / entry_price if entry_price else 0`,
where the condition is falsy both for None and for a zero entry price. -/
def get_position_size (s : StrategyState) : ℚ :=
  match s.entry_price with
  | none => 0
  | some p => if p = 0 then 0 else s.cash * (95 / 100) / p

/-- BaseStrategy.buy (base_strategy.py lines 72-97).  Returns the Python
boolean result paired with the state after the call. -/
def buy (s : StrategyState) (price : ℚ) (size : Option ℚ) : Bool × StrategyState :=
  if s.position > 0 then (false, s)
  else
    let sz := match size with
      | none => get_position_size s
      | some v => v
    let cost := price * sz
    if cost > s.cash then (false, s)
    else (true, { position := sz, cash := s.cash - cost, entry_price := some price })

/-- The effective sell size of BaseStrategy.sell (base_strategy.py lines
114-118): default to the whole position, clamp a larger request down. -/
def sell_size (s : StrategyState) (size : Option ℚ) : ℚ :=
  let sz0 := size.getD s.position
  if sz0 > s.position then s.position else sz0

/-- BaseStrategy.sell (base_strategy.py lines 99-127).  Returns the
Python boolean result paired with the state after the call. -/
def sell (s : StrategyState) (price : ℚ) (size : Option ℚ) : Bool × StrategyState :=
  if s.position ≤ 0 then (false, s)
  else
    let sz := sell_size s size
    let pos := s.position - sz
    (true, { position := pos
             cash := s.cash + price * sz
             entry_price := if pos = 0 then none else s.entry_price })

/-- BaseStrategy.reset (base_strategy.py lines 144-150): position and
entry price cleared, cash set to the hardcoded default 100000.0. -/
def reset (_s : StrategyState) : StrategyState :=
  { position := 0, cash := 100000, entry_price := none }

end BaseStrategy

/-- Trade side tag, the 'type' field of a trade dict in engine.py. -/
inductive Side where
  | BUY
  | SELL
deriving DecidableEq, BEq, Repr

/-- One entry of BacktestEngine.trades (engine.py lines 93-98 and
115-120). -/
structure Trade where
  datetime : ℕ
  side : Side
  price : ℚ
  size : ℚ
deriving DecidableEq, Repr

instance : Inhabited Trade := ⟨⟨0, Side.BUY, 0, 0⟩⟩

/-- One entry of BacktestEngine.signals (engine.py lines 100-104 and
122-126). -/
structure Signal where
  datetime : ℕ
  signal : Side
  price : ℚ
deriving DecidableEq, Repr

/-- One entry of BacktestEngine.equity_curve (engine.py lines 135-141). -/
structure EquityPoint where
  datetime : ℕ
  value : ℚ
  cash : ℚ
  position_value : ℚ
  price : ℚ
deriving DecidableEq, Repr

/-- A concrete strategy over indicator state σ: the abstract methods of
BaseStrategy (on_bar, should_buy, should_sell) plus the indicator state
that a chained reset restores.  Per the contract, on_bar only updates
indicator state, while the signal queries may read both the indicator
state and the shared trading state. -/
structure Strategy (σ : Type) where
  init : σ
  on_bar : σ → Bar → σ
  should_buy : σ → StrategyState → Bool
  should_sell : σ → StrategyState → Bool

/-- The mutable state of BacktestEngine.run: the strategy (indicator and
trading state) plus the trade, equity and signal logs. -/
structure EngineState (σ : Type) where
  strat : σ
  st : StrategyState
  trades : List Trade
  equity : List EquityPoint
  signals : List Signal

namespace BacktestEngine

open BaseStrategy

/-- The buy/sell half of one loop iteration of BacktestEngine.run
(engine.py lines 80-129): on_bar, then the buy check, and the sell check
only if the buy check did not fire.  Note that line 88 assigns
entry_price before the buy is attempted, and that the BUY trade size is
read from the post-buy position while the SELL trade size is captured
before the sell. -/
def stepSignals {σ : Type} (S : Strategy σ) (e : EngineState σ) (bar : Bar) :
    EngineState σ :=
  let strat := S.on_bar e.strat bar
  let price := bar.close
  if S.should_buy strat e.st then
    let stPre := { e.st with entry_price := some price }
    let size := get_position_size stPre
    let r := buy stPre price (some size)
    if r.1 then
      { e with strat := strat, st := r.2
               trades := e.trades ++ [⟨bar.datetime, Side.BUY, price, r.2.position⟩]
               signals := e.signals ++ [⟨bar.datetime, Side.BUY, price⟩] }
    else { e with strat := strat, st := stPre }
  else if S.should_sell strat e.st then
    let size := e.st.position
    let r := sell e.st price none
    if r.1 then
      { e with strat := strat, st := r.2
               trades := e.trades ++ [⟨bar.datetime, Side.SELL, price, size⟩]
               signals := e.signals ++ [⟨bar.datetime, Side.SELL, price⟩] }
    else { e with strat := strat, st := r.2 }
  else { e with strat := strat }

/-- One full loop iteration of BacktestEngine.run: the buy/sell half
followed by the equity append of engine.py lines 131-141. -/
def stepBar {σ : Type} (S : Strategy σ) (e : EngineState σ) (bar : Bar) :
    EngineState σ :=
  let e1 := stepSignals S e bar
  let pv := e1.st.position * bar.close
  { e1 with equity :=
      e1.equity ++ [⟨bar.datetime, e1.st.cash + pv, e1.st.cash, pv, bar.close⟩] }

/-- The trading state right after the run-start sequence of engine.py
lines 62-63: strategy.reset() followed by the forced assignment
cash := initial_capital. -/
def initState (initial_capital : ℚ) : StrategyState :=
  { reset ⟨0, 0, none⟩ with cash := initial_capital }

/-- The loop of BacktestEngine.run (engine.py lines 62-141): reset, force
the cash, clear the logs, then fold the per-bar step over the series. -/
def runEngine {σ : Type} (S : Strategy σ) (initial_capital : ℚ)
    (bars : List Bar) : EngineState σ :=
  bars.foldl (stepBar S) ⟨S.init, initState initial_capital, [], [], []⟩

end BacktestEngine

/-- Python round(x, 2): round to two decimal places, ties to even
(IEEE round-half-even, exact on the rational model). -/
def roundHalfEven (q : ℚ) : ℤ :=
  let f := ⌊q⌋
  let frac := q - f
  if frac < 1 / 2 then f
  else if frac > 1 / 2 then f + 1
  else if f % 2 = 0 then f else f + 1

/-- Two-decimal rounding used on the reported percentages. -/
def round2 (q : ℚ) : ℚ := (roundHalfEven (q * 100) : ℚ) / 100

/-- The profit factor value: either a finite rational or the float('inf')
sentinel (engine.py line 278). -/
inductive PF where
  | inf
  | val (q : ℚ)
deriving DecidableEq, Repr

namespace BacktestEngine

/-- The buy-side trade log filter of engine.py line 173. -/
def buyTrades (trades : List Trade) : List Trade :=
  trades.filter (fun t => t.side == Side.BUY)

/-- The sell-side trade log filter of engine.py line 174. -/
def sellTrades (trades : List Trade) : List Trade :=
  trades.filter (fun t => t.side == Side.SELL)

/-- total_trades of engine.py line 175: the number of FIFO buy/sell
pairs. -/
def totalTrades (trades : List Trade) : ℕ :=
  min (buyTrades trades).length (sellTrades trades).length

/-- profit_pct of one buy/sell pair (engine.py line 182). -/
def pairProfit (b s : Trade) : ℚ :=
  (s.price - b.price) / b.price * 100

/-- The profits list of engine.py lines 178-183: the i-th buy paired with
the i-th sell, for i below the paired count. -/
def pairedProfits (trades : List Trade) : List ℚ :=
  (List.range (totalTrades trades)).map fun i =>
    pairProfit ((buyTrades trades).getD i default) ((sellTrades trades).getD i default)

/-- won_trades of engine.py line 185: pairs with strictly positive
profit. -/
def wonTrades (trades : List Trade) : ℕ :=
  ((pairedProfits trades).filter (fun p => decide (0 < p))).length

/-- lost_trades of engine.py line 186: pairs with profit at most zero. -/
def lostTrades (trades : List Trade) : ℕ :=
  ((pairedProfits trades).filter (fun p => decide (p ≤ 0))).length

/-- BacktestEngine._calculate_profit_factor (engine.py lines 272-280). -/
def calculate_profit_factor (profits : List ℚ) : PF :=
  let gross_profit := (profits.filter (fun p => decide (0 < p))).sum
  let gross_loss := |(profits.filter (fun p => decide (p < 0))).sum|
  if gross_loss = 0 then
    if gross_profit > 0 then PF.inf else PF.val 0
  else PF.val (round2 (gross_profit / gross_loss))

/-- The slice of the results dict of BacktestEngine._calculate_metrics
that the claims inspect.  The empty-curve branch of engine.py lines
154-160 returns a dict holding only final_value, return_pct,
total_trades and the error marker; the remaining fields of this record
are filled with zero defaults in that branch and no claim depends on
them there. -/
structure Report where
  initial_capital : ℚ
  final_value : ℚ
  return_pct : ℚ
  total_trades : ℕ
  won_trades : ℕ
  lost_trades : ℕ
  profit_factor : PF
  error : Option String
deriving DecidableEq, Repr

/-- BacktestEngine._calculate_metrics (engine.py lines 147-226),
restricted to the fields the claims inspect.  An empty equity curve
yields the degenerate no-data report; otherwise final_value is the last
equity value and the reported percentages are rounded to two decimals. -/
def calculate_metrics (initial_capital : ℚ) (trades : List Trade)
    (equity : List EquityPoint) : Report :=
  match equity.getLast? with
  | none =>
      { initial_capital := initial_capital
        final_value := initial_capital
        return_pct := 0
        total_trades := 0
        won_trades := 0
        lost_trades := 0
        profit_factor := PF.val 0
        error := some "No data" }
  | some lastPt =>
      let final_value := lastPt.value
      let total_return := (final_value - initial_capital) / initial_capital * 100
      { initial_capital := initial_capital
        final_value := round2 final_value
        return_pct := round2 total_return
        total_trades := totalTrades trades
        won_trades := wonTrades trades
        lost_trades := lostTrades trades
        profit_factor := calculate_profit_factor (pairedProfits trades)
        error := none }

/-- BacktestEngine.run (engine.py lines 46-145).  With verbose output the
header prints self.data.index[0] and self.data.index[-1] (line 58),
which raises IndexError on an empty series before the loop; otherwise
the loop runs and the metrics are computed. -/
def run {σ : Type} (S : Strategy σ) (initial_capital : ℚ) (bars : List Bar)
    (verbose : Bool) : Except String Report :=
  if verbose && bars.isEmpty then
    Except.error "IndexError"
  else
    let e := runEngine S initial_capital bars
    Except.ok (calculate_metrics initial_capital e.trades e.equity)

end BacktestEngine

/-- The state-machine invariant claimed by the spec, weakened to the
direction that actually holds: the position is never negative and a
positive position always carries an entry price. -/
def StateInv (s : StrategyState) : Prop :=
  0 ≤ s.position ∧ (0 < s.position → s.entry_price ≠ none)

/-- A minimal spec-compliant strategy with no indicator state: it signals
a buy whenever the position is flat and never signals a sell.  Used to
instantiate the engine theorems on concrete runs. -/
def flatBuyStrat : Strategy Unit where
  init := ()
  on_bar := fun s _ => s
  should_buy := fun _ st => decide (st.position = 0)
  should_sell := fun _ _ => false

/-- A one-bar series with every price equal to 100. -/
def bar100 : Bar := ⟨0, 100, 100, 100, 100, 0⟩

/-- A concrete trade log with one FIFO pair (a breakeven round trip at
price 100) and one trailing unmatched buy. -/
def exTrades : List Trade :=
  [⟨0, Side.BUY, 100, 1⟩, ⟨1, Side.SELL, 100, 1⟩, ⟨2, Side.BUY, 50, 1⟩]

namespace BaseStrategy

/-- Closed-form description of buy with an explicit size. -/
theorem buy_some_eq (s : StrategyState) (price sz : ℚ) :
    buy s price (some sz) =
      if s.position > 0 then (false, s)
      else if price * sz > s.cash then (false, s)
      else (true, { position := sz, cash := s.cash - price * sz, entry_price := some price }) :=
  rfl

/-- Closed-form description of sell. -/
theorem sell_eq (s : StrategyState) (price : ℚ) (size : Option ℚ) :
    sell s price size =
      if s.position ≤ 0 then (false, s)
      else (true, { position := s.position - sell_size s size
                    cash := s.cash + price * sell_size s size
                    entry_price :=
                      if s.position - sell_size s size = 0 then none
                      else s.entry_price }) :=
  rfl

/-- The clamp of the sell size is exactly the minimum of the requested
size (defaulted to the position) and the position. -/
theorem sell_size_eq_min (s : StrategyState) (size : Option ℚ) :
    sell_size s size = min (size.getD s.position) s.position := by
  unfold sell_size
  rcases le_or_lt (size.getD s.position) s.position with h | h
  · rw [if_neg (not_lt.mpr h), min_eq_left h]
  · rw [if_pos h, min_eq_right h.le]

/-- With no explicit size the effective sell size is the whole
position. -/
theorem sell_size_none (s : StrategyState) : sell_size s none = s.position := by
  unfold sell_size
  simp

end BaseStrategy

open BaseStrategy BacktestEngine

/-- C3: buy(price, size) fails with no state change when a position is
already held or the cost exceeds the cash, and otherwise succeeds,
setting position to the requested size, recording the entry price, and
reducing the cash by price*size. -/
theorem C3_buy_spec (s : StrategyState) (price size : ℚ) :
    ((s.position > 0 ∨ price * size > s.cash) →
      buy s price (some size) = (false, s)) ∧
    (¬s.position > 0 → ¬price * size > s.cash →
      buy s price (some size) =
        (true, { position := size, cash := s.cash - price * size,
                 entry_price := some price })) := by
  constructor
  · rintro (h | h)
    · rw [buy_some_eq, if_pos h]
    · by_cases hp : s.position > 0
      · rw [buy_some_eq, if_pos hp]
      · rw [buy_some_eq, if_neg hp, if_pos h]
  · intro h1 h2
    rw [buy_some_eq, if_neg h1, if_neg h2]

/-- Witness for C3 at a concrete state: a buy of 2 shares at price 10
out of 100 cash succeeds and costs 20. -/
theorem C3_witness :
    buy { position := 0, cash := 100, entry_price := none } 10 (some 2) =
      (true, { position := 2, cash := 80, entry_price := some 10 }) := by
  have h := (C3_buy_spec { position := 0, cash := 100, entry_price := none } 10 2).2
    (by norm_num) (by norm_num)
  rw [h]
  norm_num

/-- C4: sell(price, size) fails with no state change exactly when the
position is not positive; otherwise the effective size is the requested
size defaulted to the position and clamped down to it, the cash grows by
price times that size, the position shrinks by it, and the entry price
is cleared precisely when the position reaches exactly zero. -/
theorem C4_sell_spec (s : StrategyState) (price : ℚ) (size : Option ℚ) :
    (s.position ≤ 0 → sell s price size = (false, s)) ∧
    (0 < s.position →
      sell_size s size = min (size.getD s.position) s.position ∧
      (sell s price size).1 = true ∧
      (sell s price size).2.cash = s.cash + price * sell_size s size ∧
      (sell s price size).2.position = s.position - sell_size s size ∧
      (sell s price size).2.entry_price =
        (if s.position - sell_size s size = 0 then none else s.entry_price)) := by
  constructor
  · intro h
    rw [sell_eq, if_pos h]
  · intro h
    have hn : ¬s.position ≤ 0 := not_le.mpr h
    rw [sell_eq, if_neg hn]
    exact ⟨sell_size_eq_min s size, rfl, rfl, rfl, rfl⟩

/-- Witness for C4 at a concrete state: a request to sell 7 out of a
position of 3 at price 10 is clamped to 3, closes the position and
clears the entry price. -/
theorem C4_sell_witness :
    sell { position := 3, cash := 5, entry_price := some 2 } 10 (some 7) =
      (true, { position := 0, cash := 35, entry_price := none }) := by
  have h := (C4_sell_spec { position := 3, cash := 5, entry_price := some 2 } 10 (some 7)).2
    (by norm_num)
  obtain ⟨hmin, h1, h2, h3, h4⟩ := h
  have hsz : sell_size { position := 3, cash := 5, entry_price := some 2 } (some 7) = 3 := by
    rw [hmin]
    norm_num
  rw [hsz] at h2 h3 h4
  have : (sell { position := 3, cash := 5, entry_price := some 2 } 10 (some 7)).2 =
      { position := 0, cash := 35, entry_price := none } := by
    ext1
    · rw [h3]; norm_num
    · rw [h2]; norm_num
    · rw [h4]; norm_num
  calc sell { position := 3, cash := 5, entry_price := some 2 } 10 (some 7)
      = ((sell { position := 3, cash := 5, entry_price := some 2 } 10 (some 7)).1,
         (sell { position := 3, cash := 5, entry_price := some 2 } 10 (some 7)).2) := rfl
    _ = (true, { position := 0, cash := 35, entry_price := none }) := by rw [h1, this]

/-- C5 counterexample: reset() sets cash to the hardcoded default
100000.0, not to the run's initial capital — a run configured with
50000 still sees cash 100000 right after reset(). -/
theorem C5_counterexample :
    (reset (initState 50000)).cash = 100000 ∧ (100000 : ℚ) ≠ 50000 := by
  exact ⟨rfl, by norm_num⟩

/-- C5 amended: reset() clears the position and the entry price and sets
cash to the hardcoded default 100000; the engine's run-start sequence
then force-sets cash to the run's initial capital, so the state the loop
starts from is position 0, no entry price, cash equal to the configured
initial capital. -/
theorem C5_reset_amended (s : StrategyState) (initial_capital : ℚ) :
    reset s = { position := 0, cash := 100000, entry_price := none } ∧
    initState initial_capital =
      { position := 0, cash := initial_capital, entry_price := none } :=
  ⟨rfl, rfl⟩

/-- The per-bar step preserves the weakened state invariant as long as
the bar close is non-negative. -/
theorem stepSignals_inv {σ : Type} (S : Strategy σ) (e : EngineState σ) (bar : Bar)
    (hc : 0 ≤ bar.close) (h : StateInv e.st) : StateInv (stepSignals S e bar).st := by
  simp only [stepSignals, buy_some_eq, get_position_size]
  by_cases hbuy : S.should_buy (S.on_bar e.strat bar) e.st = true
  · rw [if_pos hbuy]
    by_cases hpos : e.st.position > 0
    · rw [if_pos hpos]
      exact ⟨h.1, fun _ => by simp⟩
    · rw [if_neg hpos]
      by_cases hz : bar.close = 0
      · rw [if_pos hz]
        by_cases hcost : bar.close * 0 > e.st.cash
        · rw [if_pos hcost]
          exact ⟨h.1, fun _ => by simp⟩
        · rw [if_neg hcost]
          exact ⟨le_refl 0, fun _ => by simp⟩
      · rw [if_neg hz]
        have hcpos : 0 < bar.close := lt_of_le_of_ne hc (Ne.symm hz)
        by_cases hcost : bar.close * (e.st.cash * (95 / 100) / bar.close) > e.st.cash
        · rw [if_pos hcost]
          exact ⟨h.1, fun _ => by simp⟩
        · rw [if_neg hcost]
          have hle : e.st.cash * (95 / 100) ≤ e.st.cash := by
            have heq : bar.close * (e.st.cash * (95 / 100) / bar.close) =
                e.st.cash * (95 / 100) := by
              rw [mul_comm, div_mul_cancel₀ _ hz]
            rw [heq] at hcost
            exact not_lt.mp hcost
          have hcash : 0 ≤ e.st.cash := by linarith
          exact ⟨div_nonneg (mul_nonneg hcash (by norm_num)) hcpos.le, fun _ => by simp⟩
  · rw [if_neg hbuy]
    by_cases hsell : S.should_sell (S.on_bar e.strat bar) e.st = true
    · rw [if_pos hsell, sell_eq]
      by_cases hps : e.st.position ≤ 0
      · rw [if_pos hps]
        exact h
      · rw [if_neg hps]
        simp only [sell_size_none]
        constructor
        · simp
        · intro h0
          simp at h0
    · rw [if_neg hsell]
      exact h

/-- The invariant survives a fold of the per-bar step over any series of
bars with non-negative closes. -/
theorem foldl_stepBar_inv {σ : Type} (S : Strategy σ) :
    ∀ (l : List Bar) (e : EngineState σ), (∀ b ∈ l, 0 ≤ b.close) → StateInv e.st →
      StateInv ((l.foldl (stepBar S) e).st)
  | [], _, _, h => h
  | b :: l, e, hc, h => by
      rw [List.foldl_cons]
      exact foldl_stepBar_inv S l _
        (fun x hx => hc x (List.mem_cons_of_mem _ hx))
        (stepSignals_inv S e b (hc b (List.mem_cons_self _ _)) h)

/-- C1 counterexample: with initial capital 0 and a strategy that
signals a buy while flat, the engine pre-assigns the entry price and the
zero-size buy succeeds, so after the first bar the position is 0 while
the entry price is set — the claimed equivalence between a positive
position and a set entry price fails on a reachable state. -/
theorem C1_counterexample :
    ¬ ((0 < (runEngine flatBuyStrat 0 [bar100]).st.position) ↔
      ((runEngine flatBuyStrat 0 [bar100]).st.entry_price ≠ none)) := by
  have h1 : (runEngine flatBuyStrat 0 [bar100]).st.position = 0 := by
    norm_num [runEngine, stepBar, stepSignals, initState, flatBuyStrat, bar100,
      buy, get_position_size, reset]
  have h2 : (runEngine flatBuyStrat 0 [bar100]).st.entry_price = some 100 := by
    norm_num [runEngine, stepBar, stepSignals, initState, flatBuyStrat, bar100,
      buy, get_position_size, reset]
  rw [h1, h2]
  intro hiff
  exact absurd (hiff.mpr (by simp)) (by norm_num)

/-- C1 amended: in every state reachable through the simulation loop
over bars with non-negative closes, the position is non-negative and a
positive position implies a set entry price; the converse direction of
the claimed equivalence is dropped, since the engine assigns the entry
price before attempting a buy and a zero-size buy succeeds while the
position stays 0. -/
theorem C1_invariant_amended {σ : Type} (S : Strategy σ) (initial_capital : ℚ)
    (bars : List Bar) (hc : ∀ b ∈ bars, 0 ≤ b.close) (n : ℕ) :
    0 ≤ (runEngine S initial_capital (List.take n bars)).st.position ∧
      (0 < (runEngine S initial_capital (List.take n bars)).st.position →
        (runEngine S initial_capital (List.take n bars)).st.entry_price ≠ none) := by
  have h : StateInv (runEngine S initial_capital (List.take n bars)).st := by
    apply foldl_stepBar_inv
    · intro b hb
      exact hc b (List.take_subset n bars hb)
    · exact ⟨le_refl 0, fun h0 => absurd h0 (lt_irrefl 0)⟩
  exact h

/-- Witness for C1 amended on a concrete one-bar run. -/
theorem C1_witness :
    0 ≤ (runEngine flatBuyStrat 100000 (List.take 1 [bar100])).st.position ∧
      (0 < (runEngine flatBuyStrat 100000 (List.take 1 [bar100])).st.position →
        (runEngine flatBuyStrat 100000 (List.take 1 [bar100])).st.entry_price ≠ none) :=
  C1_invariant_amended flatBuyStrat 100000 [bar100]
    (by
      intro b hb
      rw [List.mem_singleton] at hb
      subst hb
      norm_num [bar100]) 1

/-- The buy/sell half of the step never touches the equity curve. -/
theorem stepSignals_equity {σ : Type} (S : Strategy σ) (e : EngineState σ) (bar : Bar) :
    (stepSignals S e bar).equity = e.equity := by
  simp only [stepSignals]
  by_cases hbuy : S.should_buy (S.on_bar e.strat bar) e.st = true
  · rw [if_pos hbuy]
    by_cases hr : (buy { e.st with entry_price := some bar.close } bar.close
        (some (get_position_size { e.st with entry_price := some bar.close }))).1 = true
    · rw [if_pos hr]
    · rw [if_neg hr]
  · rw [if_neg hbuy]
    by_cases hsell : S.should_sell (S.on_bar e.strat bar) e.st = true
    · rw [if_pos hsell]
      by_cases hr : (sell e.st bar.close none).1 = true
      · rw [if_pos hr]
      · rw [if_neg hr]
    · rw [if_neg hsell]

/-- A list never equals itself extended by one element. -/
theorem ne_append_singleton {α : Type} (l : List α) (t : α) :
    ¬ l = l ++ [t] := by
  intro h
  have hlen := congrArg List.length h
  simp at hlen

/-- C7: the equity point appended for a bar records the strategy cash
and the position value at the bar close, and its total value is exactly
their sum. -/
theorem C7_equity_point {σ : Type} (S : Strategy σ) (e : EngineState σ) (bar : Bar) :
    ∃ p : EquityPoint,
      (stepBar S e bar).equity = e.equity ++ [p] ∧
      p.value = p.cash + p.position_value ∧
      p.position_value = (stepBar S e bar).st.position * bar.close ∧
      p.cash = (stepBar S e bar).st.cash ∧
      p.price = bar.close := by
  refine ⟨⟨bar.datetime,
    (stepSignals S e bar).st.cash + (stepSignals S e bar).st.position * bar.close,
    (stepSignals S e bar).st.cash,
    (stepSignals S e bar).st.position * bar.close, bar.close⟩, ?_, rfl, rfl, rfl, rfl⟩
  show (stepSignals S e bar).equity ++ _ = e.equity ++ _
  rw [stepSignals_equity]

/-- Witness for C7 on a concrete step. -/
theorem C7_witness :
    ∃ p : EquityPoint,
      (stepBar flatBuyStrat ⟨(), initState 100000, [], [], []⟩ bar100).equity =
        [] ++ [p] ∧
      p.value = p.cash + p.position_value ∧
      p.position_value =
        (stepBar flatBuyStrat ⟨(), initState 100000, [], [], []⟩ bar100).st.position *
          bar100.close ∧
      p.cash = (stepBar flatBuyStrat ⟨(), initState 100000, [], [], []⟩ bar100).st.cash ∧
      p.price = bar100.close :=
  C7_equity_point flatBuyStrat ⟨(), initState 100000, [], [], []⟩ bar100

/-- C2: each bar appends at most one trade; an appended trade is priced
at the bar close; a BUY trade is only appended when the buy check fired
and its size is the post-buy position, while a SELL trade is only
appended when the buy check did not fire and its size is the pre-sell
position. -/
theorem C2_single_trade {σ : Type} (S : Strategy σ) (e : EngineState σ) (bar : Bar) :
    ((stepBar S e bar).trades = e.trades ∨
      ∃ t : Trade, (stepBar S e bar).trades = e.trades ++ [t]) ∧
    (∀ t : Trade, (stepBar S e bar).trades = e.trades ++ [t] →
      t.price = bar.close ∧
      (t.side = Side.BUY →
        S.should_buy (S.on_bar e.strat bar) e.st = true ∧
        t.size = (stepBar S e bar).st.position) ∧
      (t.side = Side.SELL →
        S.should_buy (S.on_bar e.strat bar) e.st = false ∧
        t.size = e.st.position)) := by
  have htr : (stepBar S e bar).trades = (stepSignals S e bar).trades := rfl
  have hstq : (stepBar S e bar).st = (stepSignals S e bar).st := rfl
  by_cases hbuy : S.should_buy (S.on_bar e.strat bar) e.st = true
  · rcases hb : buy { e.st with entry_price := some bar.close } bar.close
        (some (get_position_size { e.st with entry_price := some bar.close })) with ⟨succ, st2⟩
    cases succ with
    | true =>
      have hs : stepSignals S e bar =
          { e with strat := S.on_bar e.strat bar, st := st2
                   trades := e.trades ++ [⟨bar.datetime, Side.BUY, bar.close, st2.position⟩]
                   signals := e.signals ++ [⟨bar.datetime, Side.BUY, bar.close⟩] } := by
        simp only [stepSignals]
        rw [if_pos hbuy, hb]
        rfl
      constructor
      · exact Or.inr ⟨_, by rw [htr, hs]⟩
      · intro t ht
        rw [htr, hs] at ht
        have ht2 : (⟨bar.datetime, Side.BUY, bar.close, st2.position⟩ : Trade) = t := by
          have := List.append_cancel_left ht
          simpa using this
        subst ht2
        refine ⟨rfl, fun _ => ⟨hbuy, ?_⟩, fun hside => by simp at hside⟩
        rw [hstq, hs]
    | false =>
      have hs : stepSignals S e bar =
          { e with strat := S.on_bar e.strat bar
                   st := { e.st with entry_price := some bar.close } } := by
        simp only [stepSignals]
        rw [if_pos hbuy, hb]
        rfl
      constructor
      · exact Or.inl (by rw [htr, hs])
      · intro t ht
        rw [htr, hs] at ht
        exact absurd ht (ne_append_singleton e.trades t)
  · have hbuyf : S.should_buy (S.on_bar e.strat bar) e.st = false := by
      cases hx : S.should_buy (S.on_bar e.strat bar) e.st
      · rfl
      · exact absurd hx hbuy
    by_cases hsell : S.should_sell (S.on_bar e.strat bar) e.st = true
    · rcases hb : sell e.st bar.close none with ⟨succ, st2⟩
      cases succ with
      | true =>
        have hs : stepSignals S e bar =
            { e with strat := S.on_bar e.strat bar, st := st2
                     trades := e.trades ++ [⟨bar.datetime, Side.SELL, bar.close, e.st.position⟩]
                     signals := e.signals ++ [⟨bar.datetime, Side.SELL, bar.close⟩] } := by
          simp only [stepSignals]
          rw [if_neg hbuy, if_pos hsell, hb]
          rfl
        constructor
        · exact Or.inr ⟨_, by rw [htr, hs]⟩
        · intro t ht
          rw [htr, hs] at ht
          have ht2 : (⟨bar.datetime, Side.SELL, bar.close, e.st.position⟩ : Trade) = t := by
            have := List.append_cancel_left ht
            simpa using this
          subst ht2
          exact ⟨rfl, fun hside => by simp at hside, fun _ => ⟨hbuyf, rfl⟩⟩
      | false =>
        have hs : stepSignals S e bar =
            { e with strat := S.on_bar e.strat bar, st := st2 } := by
          simp only [stepSignals]
          rw [if_neg hbuy, if_pos hsell, hb]
          rfl
        constructor
        · exact Or.inl (by rw [htr, hs])
        · intro t ht
          rw [htr, hs] at ht
          exact absurd ht (ne_append_singleton e.trades t)
    · have hs : stepSignals S e bar = { e with strat := S.on_bar e.strat bar } := by
        simp only [stepSignals]
        rw [if_neg hbuy, if_neg hsell]
      constructor
      · exact Or.inl (by rw [htr, hs])
      · intro t ht
        rw [htr, hs] at ht
        exact absurd ht (ne_append_singleton e.trades t)

/-- Witness for C2 on a concrete step that emits one BUY trade: the
appended trade is priced at the bar close and sized at the post-buy
position. -/
theorem C2_witness :
    (100 : ℚ) = bar100.close ∧
      (0 : ℚ) = (stepBar flatBuyStrat ⟨(), initState 0, [], [], []⟩ bar100).st.position := by
  have h := (C2_single_trade flatBuyStrat ⟨(), initState 0, [], [], []⟩ bar100).2
    ⟨0, Side.BUY, 100, 0⟩
    (by norm_num [stepBar, stepSignals, initState, flatBuyStrat, bar100,
      buy, get_position_size, reset])
  exact ⟨h.1, (h.2.1 rfl).2⟩

/-- C6: on an empty bar series the engine raises IndexError when verbose
(the default), because the run header indexes data.index[0] before the
loop; with verbose output suppressed it returns the degenerate report
with final value equal to the initial capital, zero return, zero trades
and the explicit No data marker, exactly as the claim describes. -/
theorem C6_empty_series :
    run flatBuyStrat 100000 ([] : List Bar) true = Except.error "IndexError" ∧
    run flatBuyStrat 100000 ([] : List Bar) false =
      Except.ok { initial_capital := 100000, final_value := 100000, return_pct := 0,
                  total_trades := 0, won_trades := 0, lost_trades := 0,
                  profit_factor := PF.val 0, error := some "No data" } :=
  ⟨rfl, rfl⟩

/-- Splitting a rational list by the strict-positive test and its
complement accounts for every element. -/
theorem length_filter_pos_add_nonpos (l : List ℚ) :
    (l.filter fun p => decide (0 < p)).length +
      (l.filter fun p => decide (p ≤ 0)).length = l.length := by
  induction l with
  | nil => rfl
  | cons a l ih =>
    by_cases h : 0 < a
    · have h2 : ¬a ≤ 0 := not_le.mpr h
      simp [List.filter_cons, h, h2]
      omega
    · have h2 : a ≤ 0 := not_lt.mp h
      simp [List.filter_cons, h, h2]
      omega

/-- The i-th paired profit is computed from the i-th buy and the i-th
sell of the trade log. -/
theorem pairedProfits_getD (trades : List Trade) (i : ℕ) (h : i < totalTrades trades) :
    (pairedProfits trades).getD i 0 =
      pairProfit ((buyTrades trades).getD i default) ((sellTrades trades).getD i default) := by
  unfold pairedProfits
  have hlen : i < ((List.range (totalTrades trades)).map fun j =>
      pairProfit ((buyTrades trades).getD j default)
        ((sellTrades trades).getD j default)).length := by
    simpa using h
  rw [List.getD_eq_getElem _ _ hlen]
  simp

/-- C8: the paired-trade statistics match the i-th buy with the i-th
sell in FIFO order, count exactly min(buys, sells) pairs so trailing
unmatched buys are excluded, classify a pair as won exactly when its
profit is strictly positive and as lost exactly when it is at most
zero, and the won and lost counts partition the pairs. -/
theorem C8_fifo_pairing (trades : List Trade) :
    totalTrades trades = min (buyTrades trades).length (sellTrades trades).length ∧
    (pairedProfits trades).length = totalTrades trades ∧
    (∀ i (hb : i < (buyTrades trades).length) (hs : i < (sellTrades trades).length),
      (pairedProfits trades).getD i 0 =
        (((sellTrades trades).get ⟨i, hs⟩).price -
            ((buyTrades trades).get ⟨i, hb⟩).price) /
          ((buyTrades trades).get ⟨i, hb⟩).price * 100) ∧
    wonTrades trades + lostTrades trades = totalTrades trades ∧
    wonTrades trades = ((pairedProfits trades).filter fun p => decide (0 < p)).length ∧
    lostTrades trades = ((pairedProfits trades).filter fun p => decide (p ≤ 0)).length := by
  have hplen : (pairedProfits trades).length = totalTrades trades := by
    unfold pairedProfits
    rw [List.length_map, List.length_range]
  refine ⟨rfl, hplen, ?_, ?_, rfl, rfl⟩
  · intro i hb hs
    have hlt : i < totalTrades trades := lt_min hb hs
    rw [pairedProfits_getD trades i hlt]
    unfold pairProfit
    rw [List.getD_eq_getElem _ _ hb, List.getD_eq_getElem _ _ hs]
    simp [List.get_eq_getElem]
  · unfold wonTrades lostTrades
    rw [length_filter_pos_add_nonpos, hplen]

/-- Witness for C8 on a concrete trade log with one breakeven pair and a
trailing unmatched buy: one pair total, zero won, one lost, and the
paired profit recomputed from the first buy and first sell. -/
theorem C8_witness :
    wonTrades exTrades + lostTrades exTrades = totalTrades exTrades ∧
    (pairedProfits exTrades).getD 0 0 =
      (((sellTrades exTrades).get ⟨0, by decide⟩).price -
          ((buyTrades exTrades).get ⟨0, by decide⟩).price) /
        ((buyTrades exTrades).get ⟨0, by decide⟩).price * 100 :=
  ⟨(C8_fifo_pairing exTrades).2.2.2.1,
    (C8_fifo_pairing exTrades).2.2.1 0 (by decide)
      (by decide)⟩

/-- C9 counterexample: on the paired profits [1, -3] the code reports
round(1/3, 2) = 0.33, not the claimed exact quotient 1/3. -/
theorem C9_counterexample :
    calculate_profit_factor [1, -3] = PF.val (33 / 100) ∧
    calculate_profit_factor [1, -3] ≠ PF.val (1 / 3) := by
  have h : calculate_profit_factor [1, -3] = PF.val (33 / 100) := by
    norm_num [calculate_profit_factor, round2, roundHalfEven]
  refine ⟨h, ?_⟩
  rw [h]
  intro hcontra
  have : (33 / 100 : ℚ) = 1 / 3 := by injection hcontra
  norm_num at this

/-- C9 amended: with gross profit the sum of positive paired profits and
gross loss the absolute sum of negative ones, the profit factor is the
infinity sentinel when the loss is zero and the profit positive, zero
when both are zero, and otherwise the quotient gross_profit/gross_loss
rounded to two decimal places; no division by zero is ever raised. -/
theorem C9_profit_factor_amended (profits : List ℚ) :
    (|(profits.filter fun p => decide (p < 0)).sum| = 0 →
      0 < (profits.filter fun p => decide (0 < p)).sum →
      calculate_profit_factor profits = PF.inf) ∧
    (|(profits.filter fun p => decide (p < 0)).sum| = 0 →
      (profits.filter fun p => decide (0 < p)).sum = 0 →
      calculate_profit_factor profits = PF.val 0) ∧
    (|(profits.filter fun p => decide (p < 0)).sum| ≠ 0 →
      calculate_profit_factor profits =
        PF.val (round2 ((profits.filter fun p => decide (0 < p)).sum /
          |(profits.filter fun p => decide (p < 0)).sum|))) := by
  unfold calculate_profit_factor
  refine ⟨fun h1 h2 => ?_, fun h1 h2 => ?_, fun h1 => ?_⟩
  · rw [if_pos h1, if_pos h2]
  · rw [if_pos h1, if_neg (by simp [h2])]
  · rw [if_neg h1]

/-- Witness for C9 amended: on profits [2, -1] the loss is 1 and the
reported factor is 2. -/
theorem C9_witness : calculate_profit_factor [2, -1] = PF.val 2 := by
  have h := (C9_profit_factor_amended [2, -1]).2.2 (by norm_num)
  rw [h]
  norm_num [round2, roundHalfEven]

/-- C10: from any flat state with non-negative cash, a zero-size buy at
any price succeeds, leaves the position at 0 and the cash unchanged, yet
records the price as entry price; in the loop, a fired buy signal with
zero cash produces exactly such a zero-size BUY trade log entry. -/
theorem C10_zero_size_buy :
    (∀ (price : ℚ) (s : StrategyState), s.position = 0 → 0 ≤ s.cash →
      buy s price (some 0) = (true, { s with entry_price := some price })) ∧
    (∀ (σ : Type) (S : Strategy σ) (e : EngineState σ) (bar : Bar),
      S.should_buy (S.on_bar e.strat bar) e.st = true →
      e.st.position = 0 → e.st.cash = 0 →
      (stepBar S e bar).trades =
        e.trades ++ [⟨bar.datetime, Side.BUY, bar.close, 0⟩]) := by
  constructor
  · intro price s hpos hcash
    rw [buy_some_eq, if_neg (by rw [hpos]; exact lt_irrefl 0),
      if_neg (by rw [mul_zero]; exact not_lt.mpr hcash)]
    have hX : (⟨0, s.cash - price * 0, some price⟩ : StrategyState) =
        { s with entry_price := some price } := by
      ext1
      · exact hpos.symm
      · rw [mul_zero, sub_zero]
      · rfl
    rw [hX]
  · intro σ S e bar hbuy hpos hcash
    have hgs : get_position_size { e.st with entry_price := some bar.close } = 0 := by
      unfold get_position_size
      by_cases hz : bar.close = 0 <;> simp [hz, hcash]
    have hb : buy { e.st with entry_price := some bar.close } bar.close
        (some (get_position_size { e.st with entry_price := some bar.close })) =
        (true, ⟨0, e.st.cash - bar.close * 0, some bar.close⟩) := by
      rw [hgs, buy_some_eq, if_neg (by simp [hpos]),
        if_neg (by simp [hcash])]
    have hs : (stepBar S e bar).trades =
        e.trades ++ [⟨bar.datetime, Side.BUY, bar.close,
          (⟨0, e.st.cash - bar.close * 0, some bar.close⟩ : StrategyState).position⟩] := by
      show (stepSignals S e bar).trades = _
      simp only [stepSignals]
      rw [if_pos hbuy, hb]
      rfl
    rw [hs]

/-- Witness for C10: buying zero shares at price 3 from a flat state
with cash 7 succeeds and records entry price 3, and the concrete
zero-cash engine step logs a BUY trade of size 0. -/
theorem C10_witness :
    buy { position := 0, cash := 7, entry_price := none } 3 (some 0) =
      (true, { position := 0, cash := 7, entry_price := some 3 }) ∧
    (stepBar flatBuyStrat ⟨(), initState 0, [], [], []⟩ bar100).trades =
      [] ++ [⟨bar100.datetime, Side.BUY, bar100.close, 0⟩] := by
  constructor
  · exact C10_zero_size_buy.1 3 { position := 0, cash := 7, entry_price := none }
      rfl (by norm_num)
  · exact C10_zero_size_buy.2 Unit flatBuyStrat ⟨(), initState 0, [], [], []⟩ bar100
      (by norm_num [flatBuyStrat, initState, reset]) rfl rfl

end TradeView
